import Mathlib

/-!
Shallow embedding of the osmosis CLI wrapper (src/main.rs).

Rust strings are modelled as lists of characters (`RStr`), byte vectors as
lists of naturals below 256, and the contract-registry JSON document as an
inductive `Json` value whose object entries keep their iteration order.
External collaborators (the serde JSON parser and the pretty printer used by
`get_tx_data`) are passed in as function parameters; the daemon invocation is
modelled by a `DaemonOutput` record carrying exit status, stdout and stderr.
-/

set_option maxHeartbeats 1000000

namespace Osmosis

/-- Rust `String` / `&str`, modelled at character granularity. -/
abbrev RStr := List Char

/-- A serde-style JSON value; object entries are kept in iteration order. -/
inductive Json where
  | null : Json
  | bool : Bool → Json
  | num : Int → Json
  | str : RStr → Json
  | arr : List Json → Json
  | obj : List (RStr × Json) → Json

/-- serde `Value::as_str`. -/
def Json.asStr : Json → Option RStr
  | Json.str s => some s
  | _ => none

/-- serde `Value::as_object`, returning the entry list of an object. -/
def Json.asObj : Json → Option (List (RStr × Json))
  | Json.obj entries => some entries
  | _ => none

/-- Lookup of a key in an object's entry list (first entry with that key). -/
def jsonLookup : List (RStr × Json) → RStr → Option Json
  | [], _ => none
  | (k, v) :: rest, key => if k = key then some v else jsonLookup rest key

/-- serde `Value` indexing `json[key]`: `Null` on a missing key or a
non-object value. -/
def jsonIndex (j : Json) (key : RStr) : Json :=
  match j with
  | Json.obj entries => (jsonLookup entries key).getD Json.null
  | _ => Json.null

/-- `get_contract_address` (src/main.rs:294-305): index the registry document
by the contract name and demand a string, failing with the
`Invalid contract name` panic (the NotFoundError) otherwise.  The registry
document is a parameter because the source reloads it from disk per call. -/
def get_contract_address (reg : Json) (contract_name : RStr) : Except RStr RStr :=
  match (jsonIndex reg contract_name).asStr with
  | some s => Except.ok s
  | none => Except.error ("Invalid contract name".toList)

/-- The entry scan of `get_contract_name` (src/main.rs:315-323): walk the
object entries in iteration order, skip values that are not strings, return
the key of the first entry whose string value equals the address. -/
def scanEntries (contract_address : RStr) : List (RStr × Json) → Option RStr
  | [] => none
  | (key, value) :: rest =>
    match value.asStr with
    | some address =>
      if address = contract_address then some key
      else scanEntries contract_address rest
    | none => scanEntries contract_address rest

/-- `get_contract_name` (src/main.rs:307-326): reverse lookup of an address
in the registry document; a non-object document yields `none`. -/
def get_contract_name (reg : Json) (contract_address : RStr) : Option RStr :=
  match reg.asObj with
  | some entries => scanEntries contract_address entries
  | none => none

/-! ## Base64 (model of the `base64` crate's standard `decode`) -/

/-- The standard base64 alphabet. -/
def b64alphabet : List Char :=
  "ABCDEFGHIJKLMNOPQRSTUVWXYZabcdefghijklmnopqrstuvwxyz0123456789+/".toList

/-- Sextet value to alphabet character. -/
def encChar (n : Nat) : Char := b64alphabet.getD n 'A'

/-- Scan for a character in the alphabet, returning its position. -/
def decCharAux : List Char → Nat → Char → Option Nat
  | [], _, _ => none
  | a :: rest, i, c => if a = c then some i else decCharAux rest (i + 1) c

/-- Alphabet character to sextet value; `none` for characters outside the
alphabet (including the padding character). -/
def decChar (c : Char) : Option Nat := decCharAux b64alphabet 0 c

/-- Standard base64 encoding of a byte list (used to state the round-trip
property of `decode`). -/
def b64encodeBytes : List Nat → List Char
  | [] => []
  | [a] => [encChar (a / 4), encChar (a % 4 * 16), '=', '=']
  | [a, b] => [encChar (a / 4), encChar (a % 4 * 16 + b / 16), encChar (b % 16 * 4), '=']
  | a :: b :: c :: rest =>
    encChar (a / 4) :: encChar (a % 4 * 16 + b / 16) :: encChar (b % 16 * 4 + c / 64) ::
      encChar (c % 64) :: b64encodeBytes rest

/-- Model of `base64::decode` (standard alphabet, canonical padding required,
trailing bits must be zero): `none` is the crate's `Err`. -/
def b64decodeChars : List Char → Option (List Nat)
  | [] => some []
  | c1 :: c2 :: c3 :: c4 :: rest =>
    match decChar c1, decChar c2 with
    | some s1, some s2 =>
      if c3 = '=' then
        if c4 = '=' ∧ rest = [] ∧ s2 % 16 = 0 then some [s1 * 4 + s2 / 16] else none
      else
        match decChar c3 with
        | some s3 =>
          if c4 = '=' then
            if rest = [] ∧ s3 % 4 = 0 then some [s1 * 4 + s2 / 16, s2 % 16 * 16 + s3 / 4]
            else none
          else
            match decChar c4, b64decodeChars rest with
            | some s4, some bs =>
              some ((s1 * 4 + s2 / 16) :: (s2 % 16 * 16 + s3 / 4) :: (s3 % 4 * 64 + s4) :: bs)
            | _, _ => none
        | none => none
    | _, _ => none
  | _ => none

/-! ## UTF-8 -/

/-- UTF-8 encoding of one character (Rust `str::as_bytes`, per scalar value). -/
def utf8EncodeChar (c : Char) : List Nat :=
  let n := c.toNat
  if n < 0x80 then [n]
  else if n < 0x800 then [0xC0 + n / 64, 0x80 + n % 64]
  else if n < 0x10000 then [0xE0 + n / 4096, 0x80 + n / 64 % 64, 0x80 + n % 64]
  else [0xF0 + n / 262144, 0x80 + n / 4096 % 64, 0x80 + n / 64 % 64, 0x80 + n % 64]

/-- Rust `str::as_bytes`: the UTF-8 bytes of a string. -/
def utf8Bytes (s : RStr) : List Nat := (s.map utf8EncodeChar).flatten

/-- Admissible second byte of a three-byte sequence, given the lead byte. -/
def utf8Cont3 (b b2 : Nat) : Bool :=
  if b = 0xE0 then decide (0xA0 ≤ b2 ∧ b2 < 0xC0)
  else if b = 0xED then decide (0x80 ≤ b2 ∧ b2 < 0xA0)
  else decide (0x80 ≤ b2 ∧ b2 < 0xC0)

/-- Admissible second byte of a four-byte sequence, given the lead byte. -/
def utf8Cont4 (b b2 : Nat) : Bool :=
  if b = 0xF0 then decide (0x90 ≤ b2 ∧ b2 < 0xC0)
  else if b = 0xF4 then decide (0x80 ≤ b2 ∧ b2 < 0x90)
  else decide (0x80 ≤ b2 ∧ b2 < 0xC0)

/-- Plain continuation byte. -/
def utf8Cont (b : Nat) : Bool := decide (0x80 ≤ b ∧ b < 0xC0)

/-- Fuel-driven core of the lossy UTF-8 decoder (WHATWG decoding with one
U+FFFD per maximal invalid subpart); every step consumes at least one byte,
so fuel equal to the byte count never runs out. -/
def utf8DecodeLossyAux : Nat → List Nat → List Char
  | 0, _ => []
  | _ + 1, [] => []
  | fuel + 1, b :: rest =>
    if b < 0x80 then Char.ofNat b :: utf8DecodeLossyAux fuel rest
    else if 0xC2 ≤ b ∧ b ≤ 0xDF then
      match rest with
      | [] => ['\uFFFD']
      | b2 :: rest2 =>
        if utf8Cont b2 then
          Char.ofNat ((b - 0xC0) * 64 + (b2 - 0x80)) :: utf8DecodeLossyAux fuel rest2
        else '\uFFFD' :: utf8DecodeLossyAux fuel (b2 :: rest2)
    else if 0xE0 ≤ b ∧ b ≤ 0xEF then
      match rest with
      | [] => ['\uFFFD']
      | [b2] =>
        if utf8Cont3 b b2 then ['\uFFFD'] else '\uFFFD' :: utf8DecodeLossyAux fuel [b2]
      | b2 :: b3 :: rest3 =>
        if utf8Cont3 b b2 then
          if utf8Cont b3 then
            Char.ofNat ((b - 0xE0) * 4096 + (b2 - 0x80) * 64 + (b3 - 0x80)) ::
              utf8DecodeLossyAux fuel rest3
          else '\uFFFD' :: utf8DecodeLossyAux fuel (b3 :: rest3)
        else '\uFFFD' :: utf8DecodeLossyAux fuel (b2 :: b3 :: rest3)
    else if 0xF0 ≤ b ∧ b ≤ 0xF4 then
      match rest with
      | [] => ['\uFFFD']
      | [b2] =>
        if utf8Cont4 b b2 then ['\uFFFD'] else '\uFFFD' :: utf8DecodeLossyAux fuel [b2]
      | [b2, b3] =>
        if utf8Cont4 b b2 then
          if utf8Cont b3 then ['\uFFFD'] else '\uFFFD' :: utf8DecodeLossyAux fuel [b3]
        else '\uFFFD' :: utf8DecodeLossyAux fuel [b2, b3]
      | b2 :: b3 :: b4 :: rest4 =>
        if utf8Cont4 b b2 then
          if utf8Cont b3 then
            if utf8Cont b4 then
              Char.ofNat ((b - 0xF0) * 262144 + (b2 - 0x80) * 4096 + (b3 - 0x80) * 64 +
                (b4 - 0x80)) :: utf8DecodeLossyAux fuel rest4
            else '\uFFFD' :: utf8DecodeLossyAux fuel (b4 :: rest4)
          else '\uFFFD' :: utf8DecodeLossyAux fuel (b3 :: b4 :: rest4)
        else '\uFFFD' :: utf8DecodeLossyAux fuel (b2 :: b3 :: b4 :: rest4)
    else '\uFFFD' :: utf8DecodeLossyAux fuel rest

/-- Model of Rust `String::from_utf8_lossy`. -/
def utf8DecodeLossy (bytes : List Nat) : List Char :=
  utf8DecodeLossyAux bytes.length bytes

/-- `decode` (src/main.rs:275-280): try base64, fall back to the UTF-8 bytes
of the input on failure.  It is total by construction. -/
def decode (encoded : RStr) : List Nat :=
  match b64decodeChars encoded with
  | some decoded => decoded
  | none => utf8Bytes encoded

/-! ## Transaction response model (src/main.rs:19-77) -/

/-- src/main.rs:19-23. -/
structure Attribute where
  key : RStr
  value : RStr
  deriving DecidableEq

/-- src/main.rs:25-30. -/
structure Event where
  attributes : List Attribute
  event_type : RStr
  deriving DecidableEq

/-- src/main.rs:42-47. -/
structure Log where
  msg_index : Nat
  log : RStr
  events : List Event
  deriving DecidableEq

/-- src/main.rs:58-62. -/
structure Fund where
  denom : RStr
  amount : RStr
  deriving DecidableEq

/-- src/main.rs:49-57. -/
structure Message where
  type_ : RStr
  sender : RStr
  contract : RStr
  msg : Json
  funds : List Fund

/-- src/main.rs:70-77. -/
structure Body where
  messages : List Message
  memo : RStr
  timeout_height : RStr
  extension_options : List Json
  non_critical_extension_options : List Json

/-- src/main.rs:63-68. -/
structure Tx where
  type_ : RStr
  body : Body

/-- src/main.rs:32-40 (the parsed `TransactionResponse`). -/
structure Data where
  code : Int
  codespace : RStr
  data : RStr
  events : List Event
  tx : Tx
  logs : List Log

/-! ## Event summarizer (src/main.rs:232-273) -/

/-- The `"<key>: <value>, "` fragment one attribute contributes to the
accumulator (the body of the attribute loop, src/main.rs:238-266): under
`encoding` both key and value are base64-decoded then lossily converted;
either way the value gains a ` (<name>)` annotation when the registry
resolves it to a non-empty contract name. -/
def attrFragment (reg : Json) (encoding : Bool) (attr : Attribute) : RStr :=
  if encoding then
    let decoded_value := decode attr.value
    let decoded_key := decode attr.key
    let decoded_value_s := utf8DecodeLossy decoded_value
    let decoded_key_s := utf8DecodeLossy decoded_key
    let contract_name := (get_contract_name reg decoded_value_s).getD []
    if contract_name ≠ [] then
      decoded_key_s ++ ": ".toList ++ decoded_value_s ++ " (".toList ++ contract_name ++
        ")".toList ++ ", ".toList
    else
      decoded_key_s ++ ": ".toList ++ decoded_value_s ++ ", ".toList
  else
    let contract_name := (get_contract_name reg attr.value).getD []
    if contract_name ≠ [] then
      attr.key ++ ": ".toList ++ attr.value ++ " (".toList ++ contract_name ++
        ")".toList ++ ", ".toList
    else
      attr.key ++ ": ".toList ++ attr.value ++ ", ".toList

/-- The accumulator right before `events_short.truncate(events_short.len() - 2)`
(src/main.rs:268): previous accumulator, header `--> <type>( `, then one
fragment per attribute. -/
def preTrim (reg : Json) (encoding : Bool) (acc : RStr) (event : Event) : RStr :=
  event.attributes.foldl (fun a attr => a ++ attrFragment reg encoding attr)
    (acc ++ "--> ".toList ++ event.event_type ++ "( ".toList)

/-- One iteration of the event loop (src/main.rs:235-271): skip the sentinel
type `tx`; otherwise extend the accumulator, truncate the final two
characters and close the block with ` )\n`. -/
def eventStep (reg : Json) (encoding : Bool) (acc : RStr) (event : Event) : RStr :=
  if event.event_type = "tx".toList then acc
  else
    let s := preTrim reg encoding acc event
    s.take (s.length - 2) ++ " )\n".toList

/-- `summarize_events` (src/main.rs:232-273). -/
def summarize_events (reg : Json) (events : List Event) (encoding : Bool) : RStr :=
  events.foldl (eventStep reg encoding) []

/-! ## Transaction query handler (src/main.rs:187-230) -/

/-- The `Output` of the daemon invocation. -/
structure DaemonOutput where
  status_success : Bool
  stdout : RStr
  stderr : RStr

/-- Observable behaviour of one `get_tx_data` run: the lines printed to
stdout, the lines printed to stderr, and the message of the panic that
aborted the run, if any. -/
structure RunResult where
  out : List RStr
  err : List RStr
  panicMsg : Option RStr
  deriving DecidableEq

/-- The panic message of an out-of-bounds `Vec` index at position 0. -/
def indexPanic : RStr := "index out of bounds: the len is 0 but the index is 0".toList

/-- `get_tx_data` (src/main.rs:187-230).  The serde parser (`from_str`) and
the message pretty-printer (`to_string_pretty`) are external collaborators
passed as parameters, as is the registry document the summarizer's lookups
read.  On success the source prints the raw stdout, parses it (panicking
with `Failed to parse JSON: <error>` on failure), indexes `messages[0]` and
`logs[0]` without bounds checks (an out-of-bounds panic on an empty list),
and then prints sender, messages, events summary and logs summary in order.
On daemon failure it prints the stderr to the error stream. -/
def get_tx_data (reg : Json) (from_str : RStr → Except RStr Data)
    (to_string_pretty : Message → RStr) (output : DaemonOutput) : RunResult :=
  if output.status_success then
    let stdout := output.stdout
    match from_str stdout with
    | Except.error e =>
      { out := [stdout], err := [], panicMsg := some ("Failed to parse JSON: ".toList ++ e) }
    | Except.ok parsed_data =>
      match parsed_data.tx.body.messages with
      | [] => { out := [stdout], err := [], panicMsg := some indexPanic }
      | m0 :: _ =>
        match parsed_data.logs with
        | [] => { out := [stdout], err := [], panicMsg := some indexPanic }
        | l0 :: _ =>
          let sender := m0.sender
          let messages := parsed_data.tx.body.messages
          let events_short := summarize_events reg parsed_data.events true
          let logs_short := summarize_events reg l0.events false
          { out := [stdout, "--> Sender <--".toList, sender, "--> Messages <--".toList] ++
              messages.map (fun message => "Message:\n".toList ++ to_string_pretty message) ++
              ["--> Events <--".toList, events_short, "--> Logs <--".toList, logs_short],
            err := [], panicMsg := none }
  else
    { out := [], err := ["Command execution failed: ".toList ++ output.stderr],
      panicMsg := none }

/-! ## Spec-side renderings (for the refinement claims about `summarize`) -/

/-- The rendered `<key>: <value>` text of one attribute, without the `", "`
separator (the spec's step 3 rendering). -/
def attrRendered (reg : Json) (encoding : Bool) (attr : Attribute) : RStr :=
  if encoding then
    let decoded_value_s := utf8DecodeLossy (decode attr.value)
    let decoded_key_s := utf8DecodeLossy (decode attr.key)
    let contract_name := (get_contract_name reg decoded_value_s).getD []
    if contract_name ≠ [] then
      decoded_key_s ++ ": ".toList ++ decoded_value_s ++ " (".toList ++ contract_name ++
        ")".toList
    else
      decoded_key_s ++ ": ".toList ++ decoded_value_s
  else
    let contract_name := (get_contract_name reg attr.value).getD []
    if contract_name ≠ [] then
      attr.key ++ ": ".toList ++ attr.value ++ " (".toList ++ contract_name ++ ")".toList
    else
      attr.key ++ ": ".toList ++ attr.value

/-- Join a list of strings with a separator (no trailing separator). -/
def joinSep (sep : RStr) : List RStr → RStr
  | [] => []
  | [r] => r
  | r :: rest => r ++ sep ++ joinSep sep rest

/-- The output block of one retained event, as the code produces it
(`eventStep` with an empty previous accumulator). -/
def eventBlock (reg : Json) (encoding : Bool) (event : Event) : RStr :=
  let s := preTrim reg encoding [] event
  s.take (s.length - 2) ++ " )\n".toList

/-- Modelled from the spec: the per-event output pattern
`--> <type>( <k1>: <v1>, <k2>: <v2> )\n` — attributes joined by `", "` with
the trailing separator stripped; with zero attributes the trim instead
removes the `( ` of the header, leaving the minimal form `--> <type> )\n`. -/
def eventBlockSpec (reg : Json) (encoding : Bool) (event : Event) : RStr :=
  if event.attributes = [] then "--> ".toList ++ event.event_type ++ " )\n".toList
  else
    "--> ".toList ++ event.event_type ++ "( ".toList ++
      joinSep ", ".toList (event.attributes.map (attrRendered reg encoding)) ++ " )\n".toList

/-- The retention condition of the event loop (src/main.rs:236). -/
def keepEvent (event : Event) : Bool := event.event_type ≠ "tx".toList

/-! ## Lemmas about the summarizer -/

theorem attrFragment_eq (reg : Json) (encoding : Bool) (attr : Attribute) :
    attrFragment reg encoding attr = attrRendered reg encoding attr ++ ", ".toList := by
  unfold attrFragment attrRendered
  cases encoding <;> simp only [if_true, if_false, Bool.false_eq_true, Bool.true_eq_false,
    ite_true, ite_false] <;> split <;> simp [List.append_assoc]

theorem foldl_append_eq {α : Type} (f : α → RStr) :
    ∀ (l : List α) (h : RStr), l.foldl (fun a x => a ++ f x) h = h ++ (l.map f).flatten
  | [], h => by simp
  | x :: rest, h => by
    simp only [List.foldl_cons, List.map_cons, List.flatten_cons]
    rw [foldl_append_eq f rest (h ++ f x)]
    simp [List.append_assoc]

theorem preTrim_append (reg : Json) (encoding : Bool) (acc : RStr) (event : Event) :
    preTrim reg encoding acc event = acc ++ preTrim reg encoding [] event := by
  unfold preTrim
  rw [foldl_append_eq, foldl_append_eq]
  simp [List.append_assoc]

theorem preTrim_length (reg : Json) (encoding : Bool) (acc : RStr) (event : Event) :
    acc.length + event.event_type.length + 6 ≤ (preTrim reg encoding acc event).length := by
  unfold preTrim
  rw [foldl_append_eq]
  have h1 : ("--> ".toList : RStr).length = 4 := rfl
  have h2 : ("( ".toList : RStr).length = 2 := rfl
  simp only [List.length_append, h1, h2]
  omega

theorem preTrim_nil (reg : Json) (encoding : Bool) (event : Event) :
    preTrim reg encoding [] event =
      ("--> ".toList ++ event.event_type ++ "( ".toList) ++
        (event.attributes.map (attrFragment reg encoding)).flatten := by
  unfold preTrim
  rw [foldl_append_eq]
  simp [List.append_assoc]

theorem eventStep_eq (reg : Json) (encoding : Bool) (acc : RStr) (event : Event) :
    eventStep reg encoding acc event =
      acc ++ (if keepEvent event then eventBlock reg encoding event else []) := by
  unfold eventStep eventBlock keepEvent
  by_cases h : event.event_type = "tx".toList
  · simp [h]
  · simp only [h, ite_false, decide_not, ne_eq, decide_eq_true_eq, if_neg, not_false_iff,
      Bool.not_false, ite_true, if_true]
    rw [preTrim_append reg encoding acc event]
    have hp : 2 ≤ (preTrim reg encoding [] event).length := by
      have := preTrim_length reg encoding [] event
      simp only [List.length_nil] at this
      omega
    rw [List.length_append,
      show acc.length + (preTrim reg encoding [] event).length - 2 =
        acc.length + ((preTrim reg encoding [] event).length - 2) from by omega,
      List.take_append]
    simp [List.append_assoc]

theorem summarize_foldl (reg : Json) (encoding : Bool) :
    ∀ (events : List Event) (acc : RStr),
      events.foldl (eventStep reg encoding) acc =
        acc ++ ((events.filter keepEvent).map (eventBlock reg encoding)).flatten
  | [], acc => by simp
  | e :: rest, acc => by
    simp only [List.foldl_cons, List.filter_cons]
    rw [summarize_foldl reg encoding rest (eventStep reg encoding acc e), eventStep_eq]
    by_cases h : keepEvent e = true
    · simp [h, List.append_assoc]
    · simp [h]

theorem flatten_fragments (reg : Json) (encoding : Bool) :
    ∀ (attrs : List Attribute), attrs ≠ [] →
      (attrs.map (attrFragment reg encoding)).flatten =
        joinSep ", ".toList (attrs.map (attrRendered reg encoding)) ++ ", ".toList
  | [], h => absurd rfl h
  | [a], _ => by simp [joinSep, attrFragment_eq]
  | a :: b :: rest, _ => by
    have ih := flatten_fragments reg encoding (b :: rest) (by simp)
    simp only [List.map_cons, List.flatten_cons] at ih ⊢
    rw [ih, attrFragment_eq]
    simp [joinSep, List.append_assoc]

theorem eventBlock_eq_spec (reg : Json) (encoding : Bool) (event : Event) :
    eventBlock reg encoding event = eventBlockSpec reg encoding event := by
  unfold eventBlock eventBlockSpec
  by_cases h : event.attributes = []
  · rw [preTrim_nil, h]
    simp only [List.map_nil, List.flatten_nil, List.append_nil, h, ite_true, if_true]
    rw [show ("--> ".toList ++ event.event_type ++ "( ".toList : RStr) =
        ("--> ".toList ++ event.event_type) ++ "( ".toList from by simp [List.append_assoc]]
    rw [List.length_append, show (("( ".toList : RStr)).length = 2 from rfl,
      Nat.add_sub_cancel, List.take_left]
  · rw [preTrim_nil, flatten_fragments reg encoding event.attributes h]
    simp only [h, ite_false, if_neg, not_false_iff]
    rw [show (("--> ".toList ++ event.event_type ++ "( ".toList) ++
        (joinSep ", ".toList (event.attributes.map (attrRendered reg encoding)) ++
          ", ".toList) : RStr) =
        (("--> ".toList ++ event.event_type ++ "( ".toList) ++
          joinSep ", ".toList (event.attributes.map (attrRendered reg encoding))) ++
          ", ".toList from by simp [List.append_assoc]]
    rw [List.length_append, show ((", ".toList : RStr)).length = 2 from rfl,
      Nat.add_sub_cancel, List.take_left]

/-- C3: for every event sequence, the summarizer's output is exactly the
concatenation, over the retained (non-`tx`) events, of the block
`--> <type>( <k1>: <v1>, <k2>: <v2> )\n` — attributes joined by `", "` with
the trailing separator stripped (hence no comma for a single attribute);
for a zero-attribute event the explicitly defined minimal form is
`--> <type> )\n` (the trim removes the `( ` of the header). -/
theorem C3_block_pattern (reg : Json) (events : List Event) (encoding : Bool) :
    summarize_events reg events encoding =
      ((events.filter keepEvent).map (eventBlockSpec reg encoding)).flatten := by
  have hfun : eventBlock reg encoding = eventBlockSpec reg encoding :=
    funext (eventBlock_eq_spec reg encoding)
  unfold summarize_events
  rw [summarize_foldl, hfun]
  simp

/-- C4: the summarizer is total; in particular the accumulator at the point
of the trailing-separator trim (`events_short.truncate(events_short.len() - 2)`,
src/main.rs:268) always holds at least two characters more than the previous
accumulator — the event header `--> <type>( ` alone contributes six or more —
so removing two characters never underflows, even for a retained event with
zero attributes. -/
theorem C4_trim_no_underflow (reg : Json) (encoding : Bool) (acc : RStr) (event : Event) :
    acc.length + 2 ≤ (preTrim reg encoding acc event).length := by
  have := preTrim_length reg encoding acc event
  omega

/-- C8: the summarizer emits no block for events of the sentinel type `tx`
(its output equals the output on the sentinel-filtered sequence), and it
returns the empty string both for the empty sequence and whenever no
non-sentinel event exists. -/
theorem C8_sentinel_skipped :
    (∀ (reg : Json) (encoding : Bool), summarize_events reg [] encoding = []) ∧
    (∀ (reg : Json) (events : List Event) (encoding : Bool),
      summarize_events reg events encoding =
        summarize_events reg (events.filter keepEvent) encoding) ∧
    (∀ (reg : Json) (events : List Event) (encoding : Bool),
      events.filter keepEvent = [] → summarize_events reg events encoding = []) := by
  refine ⟨fun reg encoding => rfl, fun reg events encoding => ?_, fun reg events encoding h => ?_⟩
  · unfold summarize_events
    rw [summarize_foldl, summarize_foldl, List.filter_filter]
    simp
  · unfold summarize_events
    rw [summarize_foldl, h]
    simp

/-- Witness for C8 at a concrete sentinel-only input. -/
theorem C8_sentinel_skipped_witness :
    [Event.mk [Attribute.mk "k".toList "v".toList] "tx".toList].filter keepEvent = [] ∧
    summarize_events (Json.obj [])
      [Event.mk [Attribute.mk "k".toList "v".toList] "tx".toList] true = [] :=
  ⟨by decide, C8_sentinel_skipped.2.2 (Json.obj [])
    [Event.mk [Attribute.mk "k".toList "v".toList] "tx".toList] true (by decide)⟩

/-! ## Lemmas about the decoder -/

theorem decChar_encChar : ∀ n, n < 64 → decChar (encChar n) = some n := by decide

theorem encChar_ne_pad : ∀ n, n < 64 → encChar n ≠ '=' := by decide

theorem b64_decode_encode : ∀ (l : List Nat), (∀ x ∈ l, x < 256) →
    b64decodeChars (b64encodeBytes l) = some l
  | [], _ => rfl
  | [a], h => by
    have ha : a < 256 := h a (by simp)
    have h1 := decChar_encChar (a / 4) (by omega)
    have h2 := decChar_encChar (a % 4 * 16) (by omega)
    simp only [b64encodeBytes, b64decodeChars, h1, h2, if_true, true_and, and_true]
    rw [if_pos (show a % 4 * 16 % 16 = 0 from by omega)]
    have hval : a / 4 * 4 + a % 4 * 16 / 16 = a := by omega
    rw [hval]
  | [a, b], h => by
    have ha : a < 256 := h a (by simp)
    have hb : b < 256 := h b (by simp)
    have h1 := decChar_encChar (a / 4) (by omega)
    have h2 := decChar_encChar (a % 4 * 16 + b / 16) (by omega)
    have h3 := decChar_encChar (b % 16 * 4) (by omega)
    simp only [b64encodeBytes, b64decodeChars, h1, h2, h3, if_true, true_and, and_true]
    rw [if_neg (encChar_ne_pad (b % 16 * 4) (by omega)),
      if_pos (show b % 16 * 4 % 4 = 0 from by omega)]
    have hv1 : a / 4 * 4 + (a % 4 * 16 + b / 16) / 16 = a := by omega
    have hv2 : (a % 4 * 16 + b / 16) % 16 * 16 + b % 16 * 4 / 4 = b := by omega
    rw [hv1, hv2]
  | a :: b :: c :: rest, h => by
    have ha : a < 256 := h a (by simp)
    have hb : b < 256 := h b (by simp)
    have hc : c < 256 := h c (by simp)
    have ih := b64_decode_encode rest (fun x hx => h x (by simp [hx]))
    have h1 := decChar_encChar (a / 4) (by omega)
    have h2 := decChar_encChar (a % 4 * 16 + b / 16) (by omega)
    have h3 := decChar_encChar (b % 16 * 4 + c / 64) (by omega)
    have h4 := decChar_encChar (c % 64) (by omega)
    simp only [b64encodeBytes, b64decodeChars, h1, h2, h3, h4, ih]
    rw [if_neg (encChar_ne_pad (b % 16 * 4 + c / 64) (by omega)),
      if_neg (encChar_ne_pad (c % 64) (by omega))]
    have hv1 : a / 4 * 4 + (a % 4 * 16 + b / 16) / 16 = a := by omega
    have hv2 : (a % 4 * 16 + b / 16) % 16 * 16 + (b % 16 * 4 + c / 64) / 4 = b := by omega
    have hv3 : (b % 16 * 4 + c / 64) % 4 * 64 + c % 64 = c := by omega
    rw [hv1, hv2, hv3]

/-- C5: `decode` is total by construction (it returns a byte list for every
input); for every byte list `l` it maps the base64 encoding of `l` back to
`l` (valid base64 round-trips); and on any input the base64 decoder rejects
it returns the UTF-8 bytes of the input unchanged. -/
theorem C5_decode_total_roundtrip :
    (∀ (l : List Nat), (∀ x ∈ l, x < 256) → decode (b64encodeBytes l) = l) ∧
    (∀ (s : RStr), b64decodeChars s = none → decode s = utf8Bytes s) := by
  constructor
  · intro l hl
    unfold decode
    rw [b64_decode_encode l hl]
  · intro s hs
    unfold decode
    rw [hs]

/-- Witness for C5: the bytes of `ok` round-trip through base64, and the
non-base64 string `"!"` falls through to its UTF-8 bytes. -/
theorem C5_decode_total_roundtrip_witness :
    ((∀ x ∈ [111, 107], x < 256) ∧ decode (b64encodeBytes [111, 107]) = [111, 107]) ∧
    (b64decodeChars "!".toList = none ∧ decode "!".toList = utf8Bytes "!".toList) :=
  ⟨⟨by decide, C5_decode_total_roundtrip.1 [111, 107] (by decide)⟩,
   ⟨by decide, C5_decode_total_roundtrip.2 "!".toList (by decide)⟩⟩

/-! ## Lemmas about the registry -/

theorem Json.asStr_eq : ∀ (j : Json) (s : RStr), j.asStr = some s → j = Json.str s := by
  intro j s h
  cases j <;> simp [Json.asStr] at h
  rw [h]

theorem get_contract_address_obj (entries : List (RStr × Json)) (name : RStr) :
    get_contract_address (Json.obj entries) name =
      match ((jsonLookup entries name).getD Json.null).asStr with
      | some s => Except.ok s
      | none => Except.error "Invalid contract name".toList := rfl

theorem jsonLookup_mem : ∀ (entries : List (RStr × Json)) (key : RStr) (v : Json),
    jsonLookup entries key = some v → (key, v) ∈ entries
  | [], _, _, h => by simp [jsonLookup] at h
  | (k, w) :: rest, key, v, h => by
    simp only [jsonLookup] at h
    by_cases hk : k = key
    · subst hk
      rw [if_pos rfl] at h
      cases h
      exact List.mem_cons_self _ _
    · rw [if_neg hk] at h
      exact List.mem_cons_of_mem _ (jsonLookup_mem rest key v h)

theorem jsonLookup_isSome : ∀ (entries : List (RStr × Json)) (key : RStr),
    key ∈ entries.map Prod.fst → ∃ v, jsonLookup entries key = some v
  | [], key, h => by simp at h
  | (k, w) :: rest, key, h => by
    simp only [jsonLookup]
    by_cases hk : k = key
    · exact ⟨w, if_pos hk⟩
    · rw [if_neg hk]
      refine jsonLookup_isSome rest key ?_
      simp only [List.map_cons, List.mem_cons] at h
      exact h.resolve_left (fun hh => hk hh.symm)

theorem jsonLookup_eq_none : ∀ (entries : List (RStr × Json)) (key : RStr),
    key ∉ entries.map Prod.fst → jsonLookup entries key = none
  | [], _, _ => rfl
  | (k, w) :: rest, key, h => by
    simp only [List.map_cons, List.mem_cons, not_or] at h
    have hk : k ≠ key := fun hh => h.1 hh.symm
    simp only [jsonLookup]
    rw [if_neg hk]
    exact jsonLookup_eq_none rest key h.2

theorem scanEntries_sound : ∀ (entries : List (RStr × Json)) (addr k : RStr),
    scanEntries addr entries = some k → (k, Json.str addr) ∈ entries
  | [], _, _, h => by simp [scanEntries] at h
  | (key, value) :: rest, addr, k, h => by
    cases hv : value.asStr with
    | none =>
      simp only [scanEntries, hv] at h
      exact List.mem_cons_of_mem _ (scanEntries_sound rest addr k h)
    | some address =>
      simp only [scanEntries, hv] at h
      by_cases ha : address = addr
      · rw [if_pos ha] at h
        cases h
        have hval : value = Json.str addr := by
          rw [Json.asStr_eq value address hv, ha]
        rw [← hval]
        exact List.mem_cons_self _ _
      · rw [if_neg ha] at h
        exact List.mem_cons_of_mem _ (scanEntries_sound rest addr k h)

theorem scanEntries_first_match (addr k : RStr) (suffix : List (RStr × Json)) :
    ∀ (pre : List (RStr × Json)), (∀ p ∈ pre, p.2.asStr ≠ some addr) →
      scanEntries addr (pre ++ (k, Json.str addr) :: suffix) = some k
  | [], _ => by simp [scanEntries, Json.asStr]
  | (k0, v0) :: rest, h => by
    have hv0 : v0.asStr ≠ some addr := h (k0, v0) (List.mem_cons_self _ _)
    have ih := scanEntries_first_match addr k suffix rest
      (fun p hp => h p (List.mem_cons_of_mem _ hp))
    cases hv : v0.asStr with
    | none =>
      simp only [List.cons_append, scanEntries, hv]
      exact ih
    | some address =>
      have hne : address ≠ addr := fun ha => hv0 (by rw [hv, ha])
      simp only [List.cons_append, scanEntries, hv]
      rw [if_neg hne]
      exact ih

/-- The registry of the spec's worked example: `{"vault": "osmo1abc"}`. -/
def registryExample : Json := Json.obj [("vault".toList, Json.str "osmo1abc".toList)]

/-- C7: under the registry `{"vault": "osmo1abc"}` the four concrete lookup
facts hold; over any registry object whose values are all strings,
`get_contract_address` succeeds exactly on the keys and otherwise fails with
the `Invalid contract name` panic (the NotFoundError); and the reverse
lookup returns the key of the first entry in iteration order whose value is
the queried address, also when later duplicates exist. -/
theorem C7_registry_resolution :
    (get_contract_address registryExample "vault".toList = Except.ok "osmo1abc".toList) ∧
    (get_contract_address registryExample "missing".toList =
      Except.error "Invalid contract name".toList) ∧
    (get_contract_name registryExample "osmo1abc".toList = some "vault".toList) ∧
    (get_contract_name registryExample "osmo1xyz".toList = none) ∧
    (∀ (entries : List (RStr × Json)) (name : RStr),
      (∀ p ∈ entries, ∃ s, p.2 = Json.str s) →
      (((∃ a, get_contract_address (Json.obj entries) name = Except.ok a) ↔
          name ∈ entries.map Prod.fst) ∧
        (get_contract_address (Json.obj entries) name =
            Except.error "Invalid contract name".toList ↔
          name ∉ entries.map Prod.fst))) ∧
    (∀ (pre : List (RStr × Json)) (k addr : RStr) (suffix : List (RStr × Json)),
      (∀ p ∈ pre, p.2.asStr ≠ some addr) →
      get_contract_name (Json.obj (pre ++ (k, Json.str addr) :: suffix)) addr = some k) := by
  refine ⟨rfl, rfl, rfl, rfl, fun entries name hstr => ?_, fun pre k addr suffix hpre => ?_⟩
  · by_cases hmem : name ∈ entries.map Prod.fst
    · obtain ⟨v, hv⟩ := jsonLookup_isSome entries name hmem
      obtain ⟨s, hs⟩ := hstr (name, v) (jsonLookup_mem entries name v hv)
      have hok : get_contract_address (Json.obj entries) name = Except.ok s := by
        rw [get_contract_address_obj, hv, Option.getD_some, show v = Json.str s from hs]
        rfl
      constructor
      · exact ⟨fun _ => hmem, fun _ => ⟨s, hok⟩⟩
      · constructor
        · intro herr
          rw [hok] at herr
          cases herr
        · intro hno
          exact absurd hmem hno
    · have hnone : jsonLookup entries name = none := jsonLookup_eq_none entries name hmem
      have herr : get_contract_address (Json.obj entries) name =
          Except.error "Invalid contract name".toList := by
        rw [get_contract_address_obj, hnone]
        rfl
      constructor
      · constructor
        · rintro ⟨a, ha⟩
          rw [herr] at ha
          cases ha
        · intro hm
          exact absurd hm hmem
      · exact ⟨fun _ => hmem, fun _ => herr⟩
  · unfold get_contract_name Json.asObj
    exact scanEntries_first_match addr k suffix pre hpre

/-- Witness for C7's quantified parts at a registry with a duplicate address
and a non-key query. -/
theorem C7_registry_resolution_witness :
    ((∀ p ∈ [("vault".toList, Json.str "osmo1abc".toList)], ∃ s, p.2 = Json.str s) ∧
      (get_contract_address (Json.obj [("vault".toList, Json.str "osmo1abc".toList)])
          "nokey".toList = Except.error "Invalid contract name".toList ↔
        "nokey".toList ∉
          [("vault".toList, Json.str "osmo1abc".toList)].map Prod.fst)) ∧
    ((∀ p ∈ [("pool".toList, Json.str "osmo1zzz".toList)], p.2.asStr ≠ some "osmo1abc".toList) ∧
      get_contract_name (Json.obj ([("pool".toList, Json.str "osmo1zzz".toList)] ++
        ("vault".toList, Json.str "osmo1abc".toList) ::
          [("dup".toList, Json.str "osmo1abc".toList)])) "osmo1abc".toList =
        some "vault".toList) :=
  ⟨⟨fun p hp => by
      rw [List.mem_singleton] at hp
      rw [hp]
      exact ⟨"osmo1abc".toList, rfl⟩,
    ((C7_registry_resolution.2.2.2.2.1 [("vault".toList, Json.str "osmo1abc".toList)]
      "nokey".toList (fun p hp => by
        rw [List.mem_singleton] at hp
        rw [hp]
        exact ⟨"osmo1abc".toList, rfl⟩)).2)⟩,
   ⟨by decide,
    C7_registry_resolution.2.2.2.2.2 [("pool".toList, Json.str "osmo1zzz".toList)]
      "vault".toList "osmo1abc".toList [("dup".toList, Json.str "osmo1abc".toList)]
      (by decide)⟩⟩

/-- C10: the reverse lookup returns a name only for an entry whose value is
the JSON string equal to the queried address; entries with non-string values
are skipped during the scan; and a registry document that is not a JSON
object yields `none` rather than a failure. -/
theorem C10_reverse_lookup_shape :
    (∀ (entries : List (RStr × Json)) (addr k : RStr),
      get_contract_name (Json.obj entries) addr = some k → (k, Json.str addr) ∈ entries) ∧
    (∀ (k : RStr) (v : Json) (entries : List (RStr × Json)) (addr : RStr),
      v.asStr = none →
      get_contract_name (Json.obj ((k, v) :: entries)) addr =
        get_contract_name (Json.obj entries) addr) ∧
    (∀ (j : Json) (addr : RStr), j.asObj = none → get_contract_name j addr = none) := by
  refine ⟨fun entries addr k h => ?_, fun k v entries addr hv => ?_, fun j addr hj => ?_⟩
  · exact scanEntries_sound entries addr k h
  · unfold get_contract_name Json.asObj
    simp only [scanEntries, hv]
  · unfold get_contract_name
    rw [hj]

/-- Witness for C10 at a registry holding a numeric entry, and at an array
document. -/
theorem C10_reverse_lookup_shape_witness :
    (get_contract_name (Json.obj [("vault".toList, Json.str "osmo1abc".toList)])
        "osmo1abc".toList = some "vault".toList ∧
      ("vault".toList, Json.str "osmo1abc".toList) ∈
        [("vault".toList, Json.str "osmo1abc".toList)]) ∧
    ((Json.num 3).asStr = none ∧
      get_contract_name (Json.obj [("count".toList, Json.num 3)]) "3".toList =
        get_contract_name (Json.obj []) "3".toList) ∧
    ((Json.arr []).asObj = none ∧ get_contract_name (Json.arr []) "osmo1abc".toList = none) :=
  ⟨⟨rfl, C10_reverse_lookup_shape.1 [("vault".toList, Json.str "osmo1abc".toList)]
      "osmo1abc".toList "vault".toList rfl⟩,
   ⟨rfl, C10_reverse_lookup_shape.2.1 "count".toList (Json.num 3) [] "3".toList rfl⟩,
   ⟨rfl, C10_reverse_lookup_shape.2.2 (Json.arr []) "osmo1abc".toList rfl⟩⟩

/-! ## Decode-enabled annotation (worked example) -/

/-- The attribute of the spec's worked example: base64 of `action` and of
`osmo1abc`. -/
def attrExample : Attribute := Attribute.mk ("YWN0aW9u".toList) ("b3NtbzFhYmM=".toList)

/-- The event of the spec's worked example. -/
def eventExample : Event := Event.mk [attrExample] ("wasm".toList)

/-- C6: decode-enabled summarization of the worked example renders
`action: osmo1abc (vault)` inside the output; in general, in either mode,
when the (decoded or raw) value resolves in the registry to a non-empty name
the attribute renders as `<key>: <value> (<name>), ` — the decoded key/value
under decoding, the raw key/value otherwise — and when it resolves to
nothing (or to the empty name, which the source collapses with no match) the
value is rendered unchanged. -/
theorem C6_decode_annotation :
    List.IsInfix ("action: osmo1abc (vault)".toList)
      (summarize_events registryExample [eventExample] true) ∧
    (∀ (reg : Json) (attr : Attribute) (name : RStr),
      get_contract_name reg (utf8DecodeLossy (decode attr.value)) = some name → name ≠ [] →
      attrFragment reg true attr =
        utf8DecodeLossy (decode attr.key) ++ ": ".toList ++
          utf8DecodeLossy (decode attr.value) ++ " (".toList ++ name ++ ")".toList ++
          ", ".toList) ∧
    (∀ (reg : Json) (attr : Attribute),
      (get_contract_name reg (utf8DecodeLossy (decode attr.value))).getD [] = [] →
      attrFragment reg true attr =
        utf8DecodeLossy (decode attr.key) ++ ": ".toList ++
          utf8DecodeLossy (decode attr.value) ++ ", ".toList) ∧
    (∀ (reg : Json) (attr : Attribute) (name : RStr),
      get_contract_name reg attr.value = some name → name ≠ [] →
      attrFragment reg false attr =
        attr.key ++ ": ".toList ++ attr.value ++ " (".toList ++ name ++ ")".toList ++
          ", ".toList) ∧
    (∀ (reg : Json) (attr : Attribute),
      (get_contract_name reg attr.value).getD [] = [] →
      attrFragment reg false attr =
        attr.key ++ ": ".toList ++ attr.value ++ ", ".toList) := by
  refine ⟨⟨"--> wasm( ".toList, " )\n".toList, by decide⟩,
    fun reg attr name h hname => ?_, fun reg attr h => ?_,
    fun reg attr name h hname => ?_, fun reg attr h => ?_⟩
  · unfold attrFragment
    rw [if_pos (rfl : true = true)]
    dsimp only
    rw [h]
    simp only [Option.getD_some]
    rw [if_pos hname]
  · unfold attrFragment
    rw [if_pos (rfl : true = true)]
    dsimp only
    rw [h]
    rw [if_neg (fun hh => hh rfl)]
  · unfold attrFragment
    rw [if_neg (fun hh : false = true => Bool.noConfusion hh)]
    dsimp only
    rw [h]
    simp only [Option.getD_some]
    rw [if_pos hname]
  · unfold attrFragment
    rw [if_neg (fun hh : false = true => Bool.noConfusion hh)]
    dsimp only
    rw [h]
    rw [if_neg (fun hh => hh rfl)]

/-- The raw (already decoded) form of the worked example's attribute, as a
daemon log would carry it. -/
def rawAttrExample : Attribute := Attribute.mk ("action".toList) ("osmo1abc".toList)

/-- Witness for C6's quantified parts, in both modes: at the worked example
against the resolving registry, and against the empty registry (no
resolution). -/
theorem C6_decode_annotation_witness :
    (get_contract_name registryExample (utf8DecodeLossy (decode attrExample.value)) =
        some ("vault".toList) ∧
      attrFragment registryExample true attrExample =
        utf8DecodeLossy (decode attrExample.key) ++ ": ".toList ++
          utf8DecodeLossy (decode attrExample.value) ++ " (".toList ++ "vault".toList ++
          ")".toList ++ ", ".toList) ∧
    ((get_contract_name (Json.obj []) (utf8DecodeLossy (decode attrExample.value))).getD [] =
        [] ∧
      attrFragment (Json.obj []) true attrExample =
        utf8DecodeLossy (decode attrExample.key) ++ ": ".toList ++
          utf8DecodeLossy (decode attrExample.value) ++ ", ".toList) ∧
    (get_contract_name registryExample rawAttrExample.value = some ("vault".toList) ∧
      attrFragment registryExample false rawAttrExample =
        rawAttrExample.key ++ ": ".toList ++ rawAttrExample.value ++ " (".toList ++
          "vault".toList ++ ")".toList ++ ", ".toList) ∧
    ((get_contract_name (Json.obj []) rawAttrExample.value).getD [] = [] ∧
      attrFragment (Json.obj []) false rawAttrExample =
        rawAttrExample.key ++ ": ".toList ++ rawAttrExample.value ++ ", ".toList) :=
  ⟨⟨by decide, C6_decode_annotation.2.1 registryExample attrExample ("vault".toList)
      (by decide) (by decide)⟩,
   ⟨rfl, C6_decode_annotation.2.2.1 (Json.obj []) attrExample rfl⟩,
   ⟨by decide, C6_decode_annotation.2.2.2.1 registryExample rawAttrExample ("vault".toList)
      (by decide) (by decide)⟩,
   ⟨rfl, C6_decode_annotation.2.2.2.2 (Json.obj []) rawAttrExample rfl⟩⟩

/-! ## Transaction query handler theorems -/

/-- C9: for every successfully parsed transaction response with a first
message and a first log, the handler summarizes the top-level events with
decoding enabled and the first log's events with decoding disabled, and
prints, in order: the raw JSON, the sender block, each message individually
formatted, the events summary, the logs summary — and nothing to stderr. -/
theorem C9_output_order (reg : Json) (from_str : RStr → Except RStr Data)
    (to_string_pretty : Message → RStr) (output : DaemonOutput) (parsed : Data)
    (m0 : Message) (ms : List Message) (l0 : Log) (ls : List Log)
    (hs : output.status_success = true)
    (hp : from_str output.stdout = Except.ok parsed)
    (hm : parsed.tx.body.messages = m0 :: ms)
    (hl : parsed.logs = l0 :: ls) :
    get_tx_data reg from_str to_string_pretty output =
      { out := [output.stdout, "--> Sender <--".toList, m0.sender,
          "--> Messages <--".toList] ++
          (m0 :: ms).map (fun message => "Message:\n".toList ++ to_string_pretty message) ++
          ["--> Events <--".toList, summarize_events reg parsed.events true,
            "--> Logs <--".toList, summarize_events reg l0.events false],
        err := [], panicMsg := none } := by
  unfold get_tx_data
  rw [hs]
  simp only [if_pos rfl, hp, hm, hl]
  rfl

/-- Witness data for the handler theorems: a response with one message and
one (eventless) log. -/
def messageExample : Message :=
  { type_ := "/cosmwasm.wasm.v1.MsgExecuteContract".toList, sender := "osmo1sender".toList,
    contract := "osmo1abc".toList, msg := Json.null, funds := [] }

/-- An empty per-message log. -/
def logExample : Log := { msg_index := 0, log := [], events := [] }

/-- A well-formed parsed response with one message and one log. -/
def dataExample : Data :=
  Data.mk 0 [] [] [] (Tx.mk [] (Body.mk [messageExample] [] [] [] [])) [logExample]

/-- Witness for C9 at a concrete parsed response. -/
theorem C9_output_order_witness :
    (DaemonOutput.mk true ("raw".toList) []).status_success = true ∧
    get_tx_data registryExample (fun _ => Except.ok dataExample)
        (fun _ => "mpretty".toList) (DaemonOutput.mk true ("raw".toList) []) =
      { out := ["raw".toList, "--> Sender <--".toList, messageExample.sender,
          "--> Messages <--".toList] ++
          [messageExample].map (fun _ => "Message:\n".toList ++ "mpretty".toList) ++
          ["--> Events <--".toList,
            summarize_events registryExample dataExample.events true,
            "--> Logs <--".toList,
            summarize_events registryExample logExample.events false],
        err := [], panicMsg := none } :=
  ⟨rfl, C9_output_order registryExample (fun _ => Except.ok dataExample)
    (fun _ => "mpretty".toList) (DaemonOutput.mk true ("raw".toList) []) dataExample
    messageExample [] logExample [] rfl rfl rfl rfl⟩

/-- A parsed response whose `tx.body.messages` list is empty. -/
def emptyMessagesData : Data :=
  Data.mk 0 [] [] [] (Tx.mk [] (Body.mk [] [] [] [] [])) [logExample]

/-- A parsed response with one message but an empty `logs` list. -/
def emptyLogsData : Data :=
  Data.mk 0 [] [] [] (Tx.mk [] (Body.mk [messageExample] [] [] [] [])) []

/-- C1: the source has no `EmptyMessagesError`.  On a parsed response with an
empty `messages` list the handler performs the unguarded index access
`tx.body.messages[0]` (src/main.rs:206) and aborts with the out-of-bounds
index panic after echoing only the raw stdout; analogously, with messages
present but an empty `logs` list, the unguarded `logs[0]` (src/main.rs:209)
aborts the same way.  This contradicts the claimed checked condition. -/
theorem C1_empty_messages_panic :
    get_tx_data Json.null (fun _ => Except.ok emptyMessagesData) (fun _ => [])
        (DaemonOutput.mk true ("rawjson".toList) []) =
      { out := ["rawjson".toList], err := [], panicMsg := some indexPanic } ∧
    get_tx_data Json.null (fun _ => Except.ok emptyLogsData) (fun _ => [])
        (DaemonOutput.mk true ("rawjson".toList) []) =
      { out := ["rawjson".toList], err := [], panicMsg := some indexPanic } :=
  ⟨rfl, rfl⟩

/-- C2 counterexample: on stdout the parser rejects, the handler does panic
with the parse reason, but only after the raw stdout has been printed — the
printed output before the failure is non-empty, refuting the claim's "no
partial output is printed before the failure". -/
theorem C2_parse_partial_output_counterexample :
    (get_tx_data Json.null (fun _ => Except.error ("expected value".toList)) (fun _ => [])
        (DaemonOutput.mk true ("garbage".toList) [])).out = ["garbage".toList] ∧
    (get_tx_data Json.null (fun _ => Except.error ("expected value".toList)) (fun _ => [])
        (DaemonOutput.mk true ("garbage".toList) [])).out ≠ [] ∧
    (get_tx_data Json.null (fun _ => Except.error ("expected value".toList)) (fun _ => [])
        (DaemonOutput.mk true ("garbage".toList) [])).panicMsg =
      some ("Failed to parse JSON: expected value".toList) :=
  ⟨rfl, by decide, rfl⟩

/-- C2 (amended): for every daemon stdout the parser rejects, the handler
fails with the ParseError panic `Failed to parse JSON: <reason>` carrying
the parse failure reason; the only output printed before the failure is the
echo of the raw stdout itself, and no summary output (sender, messages,
events, logs) is printed. -/
theorem C2_parse_error_after_echo (reg : Json) (from_str : RStr → Except RStr Data)
    (to_string_pretty : Message → RStr) (output : DaemonOutput) (e : RStr)
    (hs : output.status_success = true)
    (hp : from_str output.stdout = Except.error e) :
    get_tx_data reg from_str to_string_pretty output =
      { out := [output.stdout], err := [],
        panicMsg := some ("Failed to parse JSON: ".toList ++ e) } := by
  unfold get_tx_data
  rw [hs]
  simp only [if_pos rfl, hp]
  rfl

/-- Witness for C2's amended theorem at a concrete rejecting parser. -/
theorem C2_parse_error_after_echo_witness :
    (DaemonOutput.mk true ("garbage".toList) []).status_success = true ∧
    get_tx_data Json.null (fun _ => Except.error ("expected value".toList)) (fun _ => [])
        (DaemonOutput.mk true ("garbage".toList) []) =
      { out := ["garbage".toList], err := [],
        panicMsg := some ("Failed to parse JSON: ".toList ++ "expected value".toList) } :=
  ⟨rfl, C2_parse_error_after_echo Json.null (fun _ => Except.error ("expected value".toList))
    (fun _ => []) (DaemonOutput.mk true ("garbage".toList) []) ("expected value".toList)
    rfl rfl⟩

end Osmosis
